import Mathlib

/-!
# GO-app backend (`backend/main.go`): a shallow embedding

The program is an HTTP service with five handlers over one PostgreSQL table
`users (id SERIAL PRIMARY KEY, name TEXT, email TEXT)`, wrapped in two
middlewares.  The handlers are translated line by line from `main.go`; the
database server, the JSON decoder and the HTTP response writer are libraries,
modelled below at the interface the handlers use.

* `log.Fatal(err)` ends the process (`os.Exit(1)`): a handler that reaches it
  yields `fatal := some err` and nothing after it runs.
* A response writer records the header map, the status line once written and
  the JSON values encoded into the body.
-/

namespace GoApp

/-! ## Data model -/

/-- The Go struct `User` (`main.go` 15-19). -/
structure User where
  ID : Int
  Name : String
  Email : String
deriving DecidableEq, Repr

/-- An error returned by `database/sql`: `sql.ErrNoRows` when `QueryRow.Scan`
finds an empty result set, or any other failure reported for a statement. -/
inductive SqlError where
  | ErrNoRows
  | failure (msg : String)
deriving DecidableEq, Repr

/-- A Go slice `[]User`: `none` is the nil slice, `some xs` a non-nil slice. -/
abbrev UserSlice := Option (List User)

/-- Go `append(users, user)`. -/
def UserSlice.append (s : UserSlice) (u : User) : UserSlice :=
  some (s.getD [] ++ [u])

/-- A JSON value as produced by `json.NewEncoder(w).Encode`. -/
inductive Json where
  | null
  | string (s : String)
  | object (u : User)
  | array (us : List User)
deriving DecidableEq, Repr

/-- The value `encoding/json` produces for a `[]User`: a nil slice is `null`,
a non-nil slice an array (possibly empty). -/
def Json.ofSlice : UserSlice → Json
  | none => Json.null
  | some us => Json.array us

/-! ## The database -/

/-- Modelled from the spec: the relational store behind `*sql.DB` (a PostgreSQL
server, not part of the repository).  `rows` is the content of table `users`
in storage order, `seq` the next value of the sequence behind `id SERIAL`, and
`stmts` the SQL text of every statement sent so far, oldest first. -/
structure DB where
  rows : List User
  seq : Int
  stmts : List String
deriving DecidableEq, Repr

/-- Modelled from the spec: what the database server contributes to one request
besides the table content: how it reads a text parameter as an integer
(`none`: the text is not an integer, the statement fails), and the failures it
raises (`fault k` for the k-th statement of the request, counted from 0;
`scanErr k` for `rows.Scan` on the k-th row; `rowsErr` for `rows.Err()`). -/
structure Env where
  int4in : String → Option Int
  fault : Nat → Option String
  scanErr : Nat → Option String
  rowsErr : Option String

/-- The table invariants: `id` is a primary key, and the sequence is ahead of
every id in the table (ids are only ever assigned from the sequence). -/
def DB.WF (db : DB) : Prop :=
  (db.rows.map User.ID).Nodup ∧ ∀ u ∈ db.rows, u.ID < db.seq

instance (db : DB) : Decidable db.WF := by
  unfold DB.WF
  infer_instance

/-- The row condition `id = i` of a `WHERE` clause. -/
def User.hasId (i : Int) (u : User) : Bool := u.ID == i

/-- The row after `SET name = n, email = e WHERE id = i`. -/
def User.assign (i : Int) (n e : String) (u : User) : User :=
  if u.hasId i then { u with Name := n, Email := e } else u

/-- The first row with the given id, if any. -/
def DB.find (db : DB) (i : Int) : Option User :=
  db.rows.find? (User.hasId i)

/-- Record a statement as sent. -/
def DB.sent (db : DB) (sql : String) : DB :=
  { db with stmts := db.stmts ++ [sql] }

/-- Modelled from the spec: `db.Query("SELECT * FROM users")`, all rows in
storage order, or the failure the server raises. -/
def DB.selectAll (db : DB) (fault : Option String) :
    DB × Except SqlError (List User) :=
  let db1 := db.sent "SELECT * FROM users"
  match fault with
  | some msg => (db1, .error (.failure msg))
  | none => (db1, .ok db.rows)

/-- Modelled from the spec:
`db.QueryRow("SELECT * FROM users WHERE id = $1", id).Scan(..)`: the first
matching row, `sql.ErrNoRows` when none matches, or a failure. -/
def DB.selectById (db : DB) (int4in : String → Option Int)
    (fault : Option String) (id : String) : DB × Except SqlError User :=
  let db1 := db.sent "SELECT * FROM users WHERE id = $1"
  match fault with
  | some msg => (db1, .error (.failure msg))
  | none =>
    match int4in id with
    | none => (db1, .error (.failure "invalid input syntax for type integer"))
    | some i =>
      match db.find i with
      | none => (db1, .error .ErrNoRows)
      | some u => (db1, .ok u)

/-- Modelled from the spec:
`db.QueryRow("INSERT INTO users (name, email) VALUES ($1, $2) RETURNING id", ..).Scan(&id)`:
the row gets the next sequence value as its id and is stored last; a clash
with an existing id violates the primary key and stores nothing. -/
def DB.insertReturningId (db : DB) (fault : Option String)
    (name email : String) : DB × Except SqlError Int :=
  let db1 := db.sent "INSERT INTO users (name, email) VALUES ($1, $2) RETURNING id"
  match fault with
  | some msg => (db1, .error (.failure msg))
  | none =>
    if db.rows.any (User.hasId db.seq) then
      ({ db1 with seq := db.seq + 1 },
        .error (.failure "duplicate key value violates unique constraint"))
    else
      ({ db1 with rows := db.rows ++ [⟨db.seq, name, email⟩], seq := db.seq + 1 },
        .ok db.seq)

/-- Modelled from the spec:
`db.Exec("UPDATE users SET name = $1, email = $2 WHERE id = $3", ..)`:
every row with that id gets the new name and email; matching no row is not
an error. -/
def DB.updateById (db : DB) (int4in : String → Option Int)
    (fault : Option String) (name email id : String) :
    DB × Except SqlError Unit :=
  let db1 := db.sent "UPDATE users SET name = $1, email = $2 WHERE id = $3"
  match fault with
  | some msg => (db1, .error (.failure msg))
  | none =>
    match int4in id with
    | none => (db1, .error (.failure "invalid input syntax for type integer"))
    | some i =>
      ({ db1 with rows := db.rows.map (User.assign i name email) }, .ok ())

/-- Modelled from the spec: `db.Exec("DELETE FROM users WHERE id = $1", id)`:
every row with that id is removed; matching no row is not an error. -/
def DB.deleteById (db : DB) (int4in : String → Option Int)
    (fault : Option String) (id : String) : DB × Except SqlError Unit :=
  let db1 := db.sent "DELETE FROM users WHERE id = $1"
  match fault with
  | some msg => (db1, .error (.failure msg))
  | none =>
    match int4in id with
    | none => (db1, .error (.failure "invalid input syntax for type integer"))
    | some i =>
      ({ db1 with rows := db.rows.filter (fun u => !(u.hasId i)) }, .ok ())

/-! ## HTTP -/

/-- The `http.ResponseWriter` of one request: the header map, the status once
the header has been written, and the values encoded into the body. -/
structure ResponseWriter where
  header : List (String × String)
  status : Option Nat
  body : List Json
deriving DecidableEq, Repr

/-- A fresh response writer. -/
def ResponseWriter.new : ResponseWriter := ⟨[], none, []⟩

/-- Go `w.Header().Set(key, value)`: replaces any value stored under the key. -/
def ResponseWriter.Set (w : ResponseWriter) (key value : String) : ResponseWriter :=
  { w with header := w.header.filter (fun kv => !(kv.1 == key)) ++ [(key, value)] }

/-- Go `w.Header().Get(key)`. -/
def ResponseWriter.Get (w : ResponseWriter) (key : String) : Option String :=
  (w.header.find? (fun kv => kv.1 == key)).map Prod.snd

/-- Go `w.WriteHeader(code)`: the first call fixes the status, later calls are
ignored. -/
def ResponseWriter.WriteHeader (w : ResponseWriter) (code : Nat) : ResponseWriter :=
  match w.status with
  | some _ => w
  | none => { w with status := some code }

/-- Go `json.NewEncoder(w).Encode(v)`: writes the value to the body; a write
before any `WriteHeader` sends status 200 first. -/
def ResponseWriter.Encode (w : ResponseWriter) (v : Json) : ResponseWriter :=
  let w1 := w.WriteHeader 200
  { w1 with body := w1.body ++ [v] }

/-- What `json.NewDecoder(r.Body).Decode(&user)` does to a zero-valued `User`:
the struct as the decoder left it (absent fields stay `0` / `""`) and the
error it returned, if the body could not be decoded. -/
structure Decoded where
  user : User
  err : Option String
deriving DecidableEq, Repr

/-- The part of `*http.Request` the program reads: the method, the URL path as
its segments (`/api/go/users/7` is `["api", "go", "users", "7"]`), the body as
the decoder reads it, and the route variables `mux.Vars(r)`. -/
structure Request where
  Method : String
  Path : List String
  Body : Decoded
  Vars : List (String × String)
deriving DecidableEq, Repr

/-- The same request with another body. -/
def Request.withBody (r : Request) (b : Decoded) : Request :=
  { r with Body := b }

/-- Go `mux.Vars(r)[key]`: a missing key reads as the empty string. -/
def Request.Var (r : Request) (key : String) : String :=
  ((r.Vars.find? (fun kv => kv.1 == key)).map Prod.snd).getD ""

/-- The outcome of serving one request over a state `σ`: the response writer,
the state, and `fatal := some err` when `log.Fatal(err)` ended the process. -/
structure Result (σ : Type) where
  w : ResponseWriter
  st : σ
  fatal : Option SqlError

/-- An `http.Handler`. -/
abbrev Handler (σ : Type) := ResponseWriter → Request → σ → Result σ

/-! ## Middleware (`main.go` 55-78) -/

/-- The function `enableCORS`. -/
def enableCORS {σ : Type} (next : Handler σ) : Handler σ := fun w r st =>
  let w := w.Set "Access-Control-Allow-Origin" "*"
  let w := w.Set "Access-Control-Allow-Methods" "POST, GET, OPTIONS, PUT, DELETE"
  let w := w.Set "Access-Control-Allow-Headers" "Content-Type"
  if r.Method = "OPTIONS" then
    ⟨w.WriteHeader 200, st, none⟩
  else
    next w r st

/-- The response writer after the three `Set` calls of `enableCORS`. -/
def withCORS (w : ResponseWriter) : ResponseWriter :=
  ((w.Set "Access-Control-Allow-Origin" "*").Set
    "Access-Control-Allow-Methods" "POST, GET, OPTIONS, PUT, DELETE").Set
    "Access-Control-Allow-Headers" "Content-Type"

/-- The function `jsonContentTypeMiddleware`. -/
def jsonContentTypeMiddleware {σ : Type} (next : Handler σ) : Handler σ := fun w r st =>
  let w := w.Set "Content-Type" "application/json"
  next w r st

/-! ## Handlers (`main.go` 81-196) -/

/-- The loop `for rows.Next() { rows.Scan(..); users = append(users, user) }`
of `getUsers`, from row number `k` on: stops at the first `Scan` error. -/
def scanRows (scanErr : Nat → Option String) :
    List User → Nat → UserSlice → Except SqlError UserSlice
  | [], _, users => .ok users
  | row :: rest, k, users =>
    match scanErr k with
    | some msg => .error (.failure msg)
    | none => scanRows scanErr rest (k + 1) (users.append row)

/-- The handler `getUsers`. -/
def getUsers (env : Env) : Handler DB := fun w _r db =>
  match db.selectAll (env.fault 0) with
  | (db, .error err) => ⟨w, db, some err⟩
  | (db, .ok rows) =>
    let users : UserSlice := some []
    match scanRows env.scanErr rows 0 users with
    | .error err => ⟨w, db, some err⟩
    | .ok users =>
      match env.rowsErr with
      | some msg => ⟨w, db, some (.failure msg)⟩
      | none => ⟨w.Encode (Json.ofSlice users), db, none⟩

/-- The handler `getUser`. -/
def getUser (env : Env) : Handler DB := fun w r db =>
  let id := r.Var "id"
  match db.selectById env.int4in (env.fault 0) id with
  | (db, .error err) => ⟨w.WriteHeader 404, db, some err⟩
  | (db, .ok user) => ⟨w.Encode (.object user), db, none⟩

/-- The handler `createUser`. -/
def createUser (env : Env) : Handler DB := fun w r db =>
  let user := r.Body.user
  match db.insertReturningId (env.fault 0) user.Name user.Email with
  | (db, .error err) => ⟨w, db, some err⟩
  | (db, .ok newId) => ⟨w.Encode (.object { user with ID := newId }), db, none⟩

/-- The handler `updateUser`. -/
def updateUser (env : Env) : Handler DB := fun w r db =>
  let user := r.Body.user
  let id := r.Var "id"
  match db.updateById env.int4in (env.fault 0) user.Name user.Email id with
  | (db, .error err) => ⟨w, db, some err⟩
  | (db, .ok _) =>
    match db.selectById env.int4in (env.fault 1) id with
    | (db, .error err) => ⟨w, db, some err⟩
    | (db, .ok _updatedUser) => ⟨w.Encode (.object user), db, none⟩

/-- The handler `deleteUser`. -/
def deleteUser (env : Env) : Handler DB := fun w r db =>
  let id := r.Var "id"
  match db.selectById env.int4in (env.fault 0) id with
  | (db, .error _) => ⟨w.WriteHeader 404, db, none⟩
  | (db, .ok _user) =>
    match db.deleteById env.int4in (env.fault 1) id with
    | (db, .error _) => ⟨w.WriteHeader 404, db, none⟩
    | (db, .ok _) => ⟨w.Encode (.string "User deleted successfully"), db, none⟩

/-! ## Routing (`main.go` 41-49) -/

/-- Modelled from the spec: the handlers `gorilla/mux` falls back to, which are
library code: `notFound` when no route matches the path, `methodNotAllowed`
when a route matches the path but none matches the method. -/
structure MuxDefaults where
  notFound : Handler DB
  methodNotAllowed : Handler DB

/-- The router built in `main`: five (method, path template) pairs; the
variable `id` is the last path segment, which `{id}` requires to be
non-empty. -/
def router (mux : MuxDefaults) (env : Env) : Handler DB := fun w r db =>
  match r.Path with
  | ["api", "go", "users"] =>
    if r.Method = "GET" then getUsers env w r db
    else if r.Method = "POST" then createUser env w r db
    else mux.methodNotAllowed w r db
  | ["api", "go", "users", id] =>
    if id = "" then mux.notFound w r db
    else
      let r1 : Request := { r with Vars := [("id", id)] }
      if r.Method = "GET" then getUser env w r1 db
      else if r.Method = "PUT" then updateUser env w r1 db
      else if r.Method = "DELETE" then deleteUser env w r1 db
      else mux.methodNotAllowed w r db
  | _ => mux.notFound w r db

/-- The handler `enhancedRouter` that `main` passes to `http.ListenAndServe`. -/
def enhancedRouter (mux : MuxDefaults) (env : Env) : Handler DB :=
  enableCORS (jsonContentTypeMiddleware (router mux env))

/-! ## Sequences of requests -/

/-- The table after serving the requests one after the other with handler `h`,
each on a fresh response writer; serving stops when the process ends. -/
def stateAfter (h : Handler DB) : List Request → DB → DB
  | [], db => db
  | r :: rs, db =>
    match (h ResponseWriter.new r db).fatal with
    | some _ => (h ResponseWriter.new r db).st
    | none => stateAfter h rs (h ResponseWriter.new r db).st

/-- The outcomes of serving the requests one after the other with handler `h`,
each on a fresh response writer; serving stops when the process ends. -/
def outcomes (h : Handler DB) : List Request → DB → List (Result DB)
  | [], _ => []
  | r :: rs, db =>
    match (h ResponseWriter.new r db).fatal with
    | some _ => [h ResponseWriter.new r db]
    | none => h ResponseWriter.new r db :: outcomes h rs (h ResponseWriter.new r db).st

/-- A handler over a call counter: it only counts its invocations. -/
def countCalls : Handler Nat := fun w _ n => ⟨w, n + 1, none⟩

/-! ## Concrete environments and requests used in examples -/

/-- The value of a string of decimal digits read after the prefix `acc`. -/
def readDigits : List Char → Nat → Option Nat
  | [], acc => some acc
  | c :: cs, acc =>
    if 48 ≤ c.toNat ∧ c.toNat ≤ 57 then readDigits cs (10 * acc + (c.toNat - 48)) else none

/-- A reading of text as an integer: a non-empty string of decimal digits,
with an optional leading minus sign. -/
def decimal (s : String) : Option Int :=
  match s.data with
  | [] => none
  | '-' :: [] => none
  | '-' :: cs => (readDigits cs 0).map (fun n => - (n : Int))
  | cs => (readDigits cs 0).map (fun n => (n : Int))

/-- A server that raises no failure and reads decimal integers. -/
def healthy : Env := ⟨decimal, fun _ => none, fun _ => none, none⟩

/-- Fallback handlers that write only a status line: 404 and 405. -/
def statusOnly : MuxDefaults :=
  ⟨fun w _ db => ⟨w.WriteHeader 404, db, none⟩, fun w _ db => ⟨w.WriteHeader 405, db, none⟩⟩

/-- A server whose k-th statement of the request fails with `msg`. -/
def failingAt (k : Nat) (msg : String) : Env :=
  ⟨decimal, fun j => if j = k then some msg else none, fun _ => none, none⟩

/-- A request for `/api/go/users/{id}` as the router hands it to a handler. -/
def reqId (method id : String) (body : User) : Request :=
  ⟨method, ["api", "go", "users", id], ⟨body, none⟩, [("id", id)]⟩

/-! ## Lemmas on the table operations -/

theorem hasId_iff (i : Int) (u : User) : u.hasId i = true ↔ u.ID = i := by
  simp [User.hasId]

theorem hasId_false_iff (i : Int) (u : User) : u.hasId i = false ↔ u.ID ≠ i := by
  simp [User.hasId]

theorem assign_ID (i : Int) (n e : String) (u : User) : (u.assign i n e).ID = u.ID := by
  unfold User.assign
  split <;> rfl

theorem assign_of_hasId (i : Int) (n e : String) (u : User) (h : u.ID = i) :
    u.assign i n e = ⟨i, n, e⟩ := by
  unfold User.assign
  rw [if_pos ((hasId_iff i u).2 h), ← h]

theorem assign_of_ne (i : Int) (n e : String) (u : User) (h : u.ID ≠ i) :
    u.assign i n e = u := by
  unfold User.assign
  rw [if_neg]
  rw [hasId_iff]
  exact h

theorem hasId_assign (i j : Int) (n e : String) (u : User) :
    (u.assign i n e).hasId j = u.hasId j := by
  simp only [User.hasId, assign_ID]

theorem find_eq_none_iff (db : DB) (i : Int) :
    db.find i = none ↔ ∀ u ∈ db.rows, u.ID ≠ i := by
  simp [DB.find, List.find?_eq_none, User.hasId]

theorem find_id (db : DB) (i : Int) (u : User) (h : db.find i = some u) : u.ID = i := by
  have := List.find?_some h
  simpa [User.hasId] using this

theorem find_mem (db : DB) (i : Int) (u : User) (h : db.find i = some u) : u ∈ db.rows :=
  List.mem_of_find?_eq_some h

theorem find_isSome_of_mem (db : DB) (i : Int) (u : User) (hu : u ∈ db.rows)
    (hi : u.ID = i) : ∃ v, db.find i = some v := by
  cases h : db.find i with
  | some v => exact ⟨v, rfl⟩
  | none => exact absurd hi ((find_eq_none_iff db i).1 h u hu)

theorem map_assign_of_absent (rows : List User) (i : Int) (n e : String)
    (h : ∀ u ∈ rows, u.ID ≠ i) : rows.map (User.assign i n e) = rows := by
  induction rows with
  | nil => rfl
  | cons a t ih =>
    have ha : a.ID ≠ i := h a (List.mem_cons_self _ _)
    have ht : ∀ u ∈ t, u.ID ≠ i := fun u hu => h u (List.mem_cons_of_mem _ hu)
    rw [List.map_cons, assign_of_ne i n e a ha, ih ht]

theorem find_map_assign (rows : List User) (i j : Int) (n e : String) :
    (rows.map (User.assign i n e)).find? (User.hasId j)
      = (rows.find? (User.hasId j)).map (User.assign i n e) := by
  induction rows with
  | nil => rfl
  | cons a t ih =>
    rw [List.map_cons, List.find?_cons, List.find?_cons, hasId_assign]
    cases a.hasId j with
    | true => rfl
    | false => exact ih

theorem map_ID_map_assign (rows : List User) (i : Int) (n e : String) :
    (rows.map (User.assign i n e)).map User.ID = rows.map User.ID := by
  rw [List.map_map]
  apply List.map_congr_left
  intro u _
  exact assign_ID i n e u

/-! ## Lemmas on single statements -/

theorem selectById_found (db : DB) (conv : String → Option Int) (id : String) (i : Int)
    (u : User) (hc : conv id = some i) (hf : db.find i = some u) :
    db.selectById conv none id = (db.sent "SELECT * FROM users WHERE id = $1", .ok u) := by
  simp only [DB.selectById, hc, hf]

theorem selectById_absent (db : DB) (conv : String → Option Int) (id : String) (i : Int)
    (hc : conv id = some i) (hf : db.find i = none) :
    db.selectById conv none id
      = (db.sent "SELECT * FROM users WHERE id = $1", .error .ErrNoRows) := by
  simp only [DB.selectById, hc, hf]

theorem updateById_ok (db : DB) (conv : String → Option Int) (n e id : String) (i : Int)
    (hc : conv id = some i) :
    db.updateById conv none n e id
      = ({ db.sent "UPDATE users SET name = $1, email = $2 WHERE id = $3" with
            rows := db.rows.map (User.assign i n e) }, .ok ()) := by
  simp only [DB.updateById, hc]

theorem deleteById_ok (db : DB) (conv : String → Option Int) (id : String) (i : Int)
    (hc : conv id = some i) :
    db.deleteById conv none id
      = ({ db.sent "DELETE FROM users WHERE id = $1" with
            rows := db.rows.filter (fun u => !(u.hasId i)) }, .ok ()) := by
  simp only [DB.deleteById, hc]

theorem getUser_found (env : Env) (w : ResponseWriter) (r : Request) (db : DB) (i : Int)
    (u : User) (h0 : env.fault 0 = none) (hc : env.int4in (r.Var "id") = some i)
    (hf : db.find i = some u) :
    getUser env w r db
      = ⟨w.Encode (.object u), db.sent "SELECT * FROM users WHERE id = $1", none⟩ := by
  simp only [getUser, h0, selectById_found db env.int4in _ i u hc hf]

theorem getUser_absent (env : Env) (w : ResponseWriter) (r : Request) (db : DB) (i : Int)
    (h0 : env.fault 0 = none) (hc : env.int4in (r.Var "id") = some i)
    (hf : db.find i = none) :
    getUser env w r db
      = ⟨w.WriteHeader 404, db.sent "SELECT * FROM users WHERE id = $1",
          some .ErrNoRows⟩ := by
  simp only [getUser, h0, selectById_absent db env.int4in _ i hc hf]

theorem Encode_status (w : ResponseWriter) (v : Json) (hw : w.status = none) :
    (w.Encode v).status = some 200 := by
  simp [ResponseWriter.Encode, ResponseWriter.WriteHeader, hw]

theorem Encode_body (w : ResponseWriter) (v : Json) : (w.Encode v).body = w.body ++ [v] := by
  unfold ResponseWriter.Encode ResponseWriter.WriteHeader
  cases w.status <;> rfl

theorem WriteHeader_status (w : ResponseWriter) (c : Nat) (hw : w.status = none) :
    (w.WriteHeader c).status = some c := by
  simp [ResponseWriter.WriteHeader, hw]

theorem WriteHeader_body (w : ResponseWriter) (c : Nat) : (w.WriteHeader c).body = w.body := by
  unfold ResponseWriter.WriteHeader
  cases w.status <;> rfl

theorem WriteHeader_header (w : ResponseWriter) (c : Nat) :
    (w.WriteHeader c).header = w.header := by
  unfold ResponseWriter.WriteHeader
  cases w.status <;> rfl

theorem updateUser_run (env : Env) (w : ResponseWriter) (r : Request) (db : DB) (i : Int)
    (h0 : env.fault 0 = none) (h1 : env.fault 1 = none)
    (hc : env.int4in (r.Var "id") = some i) :
    updateUser env w r db =
      match db.find i with
      | none =>
        ⟨w, ⟨db.rows, db.seq, db.stmts ++
          ["UPDATE users SET name = $1, email = $2 WHERE id = $3",
           "SELECT * FROM users WHERE id = $1"]⟩, some .ErrNoRows⟩
      | some _ =>
        ⟨w.Encode (.object r.Body.user),
          ⟨db.rows.map (User.assign i r.Body.user.Name r.Body.user.Email), db.seq, db.stmts ++
          ["UPDATE users SET name = $1, email = $2 WHERE id = $3",
           "SELECT * FROM users WHERE id = $1"]⟩, none⟩ := by
  have hfind : ∀ d : DB, d.rows = db.rows.map (User.assign i r.Body.user.Name r.Body.user.Email) →
      d.find i = (db.find i).map (User.assign i r.Body.user.Name r.Body.user.Email) := by
    intro d hd
    unfold DB.find
    rw [hd, find_map_assign]
  cases hf : db.find i with
  | none =>
    have habs := (find_eq_none_iff db i).1 hf
    simp only [updateUser, h0, h1, updateById_ok db env.int4in _ _ _ i hc]
    rw [selectById_absent _ env.int4in _ i hc (by rw [hfind _ rfl, hf]; rfl)]
    simp [DB.sent, map_assign_of_absent db.rows i _ _ habs]
  | some u =>
    simp only [updateUser, h0, h1, updateById_ok db env.int4in _ _ _ i hc]
    rw [selectById_found _ env.int4in _ i _ hc (by rw [hfind _ rfl, hf]; rfl)]
    simp [DB.sent]

theorem filter_of_absent (rows : List User) (i : Int) (h : ∀ u ∈ rows, u.ID ≠ i) :
    rows.filter (fun u => !(u.hasId i)) = rows := by
  rw [List.filter_eq_self]
  intro u hu
  rw [(hasId_false_iff i u).2 (h u hu)]
  rfl

theorem filter_eq_erase (rows : List User) (i : Int) (u : User)
    (hnd : (rows.map User.ID).Nodup) (hf : rows.find? (User.hasId i) = some u) :
    rows.filter (fun v => !(v.hasId i)) = rows.erase u := by
  induction rows with
  | nil => simp at hf
  | cons a t ih =>
    rw [List.map_cons, List.nodup_cons] at hnd
    rw [List.find?_cons] at hf
    cases ha : a.hasId i with
    | true =>
      rw [ha] at hf
      have hau : a = u := by simpa using hf
      have hai : a.ID = i := (hasId_iff i a).1 ha
      have habs : ∀ v ∈ t, v.ID ≠ i := by
        intro v hv hvi
        apply hnd.1
        rw [hai, ← hvi]
        exact List.mem_map_of_mem _ hv
      rw [List.filter_cons, ha, ← hau, List.erase_cons_head, filter_of_absent t i habs]
      rfl
    | false =>
      rw [ha] at hf
      have hne : a ≠ u := by
        intro hau
        have hu := List.find?_some hf
        rw [← hau, ha] at hu
        exact Bool.noConfusion hu
      rw [List.filter_cons, ha, List.erase_cons_tail (by simpa using hne), ih hnd.2 hf]
      rfl

theorem find_filter_none (rows : List User) (i : Int) :
    (rows.filter (fun v => !(v.hasId i))).find? (User.hasId i) = none := by
  rw [List.find?_eq_none]
  intro v hv
  have := (List.mem_filter.1 hv).2
  simpa using this

theorem deleteUser_run (env : Env) (w : ResponseWriter) (r : Request) (db : DB) (i : Int)
    (h0 : env.fault 0 = none) (h1 : env.fault 1 = none)
    (hc : env.int4in (r.Var "id") = some i) :
    deleteUser env w r db =
      match db.find i with
      | none => ⟨w.WriteHeader 404,
          ⟨db.rows, db.seq, db.stmts ++ ["SELECT * FROM users WHERE id = $1"]⟩, none⟩
      | some _ =>
        ⟨w.Encode (.string "User deleted successfully"),
          ⟨db.rows.filter (fun u => !(u.hasId i)), db.seq, db.stmts ++
            ["SELECT * FROM users WHERE id = $1", "DELETE FROM users WHERE id = $1"]⟩,
          none⟩ := by
  cases hf : db.find i with
  | none =>
    simp only [deleteUser, h0, selectById_absent db env.int4in _ i hc hf]
    rfl
  | some u =>
    simp only [deleteUser, h0, h1, selectById_found db env.int4in _ i u hc hf,
      deleteById_ok _ env.int4in _ i hc]
    simp [DB.sent]

theorem insert_fresh (db : DB) (hwf : db.WF) : db.rows.any (User.hasId db.seq) = false := by
  rw [List.any_eq_false]
  intro u hu
  have := hwf.2 u hu
  simp only [User.hasId, beq_iff_eq]
  omega

theorem createUser_run (env : Env) (w : ResponseWriter) (r : Request) (db : DB)
    (h0 : env.fault 0 = none) (hwf : db.WF) :
    createUser env w r db =
      ⟨w.Encode (.object ⟨db.seq, r.Body.user.Name, r.Body.user.Email⟩),
        ⟨db.rows ++ [⟨db.seq, r.Body.user.Name, r.Body.user.Email⟩], db.seq + 1,
          db.stmts ++ ["INSERT INTO users (name, email) VALUES ($1, $2) RETURNING id"]⟩,
        none⟩ := by
  simp [createUser, DB.insertReturningId, h0, insert_fresh db hwf, DB.sent]

theorem WF_insert (db : DB) (hwf : db.WF) (n e : String) (stmts : List String) :
    DB.WF ⟨db.rows ++ [⟨db.seq, n, e⟩], db.seq + 1, stmts⟩ := by
  constructor
  · show ((db.rows ++ [(⟨db.seq, n, e⟩ : User)]).map User.ID).Nodup
    rw [List.map_append, List.nodup_append]
    refine ⟨hwf.1, by simp, ?_⟩
    intro a ha hb
    rcases List.mem_map.1 ha with ⟨u, hu, rfl⟩
    have := hwf.2 u hu
    simp at hb
    omega
  · intro u hu
    show u.ID < db.seq + 1
    rcases List.mem_append.1 hu with h | h
    · have := hwf.2 u h
      omega
    · simp at h
      rw [h]
      simp

theorem scanRows_ok (scanErr : Nat → Option String) (hs : ∀ k, scanErr k = none)
    (rows : List User) (k : Nat) (acc : List User) :
    scanRows scanErr rows k (some acc) = .ok (some (acc ++ rows)) := by
  induction rows generalizing k acc with
  | nil => simp [scanRows]
  | cons a t ih =>
    rw [scanRows, hs k]
    simp only [UserSlice.append, Option.getD_some]
    rw [ih]
    simp

theorem getUsers_run (env : Env) (w : ResponseWriter) (r : Request) (db : DB)
    (h0 : env.fault 0 = none) (hs : ∀ k, env.scanErr k = none) (he : env.rowsErr = none) :
    getUsers env w r db
      = ⟨w.Encode (.array db.rows), ⟨db.rows, db.seq, db.stmts ++ ["SELECT * FROM users"]⟩,
          none⟩ := by
  simp [getUsers, DB.selectAll, h0, he, scanRows_ok env.scanErr hs, Json.ofSlice, DB.sent]

theorem createAll (env : Env) (h0 : env.fault 0 = none) (reqs : List Request) :
    ∀ db : DB, db.WF → ∃ us : List User,
      (stateAfter (createUser env) reqs db).WF
      ∧ (stateAfter (createUser env) reqs db).rows = db.rows ++ us
      ∧ (outcomes (createUser env) reqs db).map (fun res => (res.w, res.fatal))
          = us.map (fun u => (ResponseWriter.new.Encode (.object u), none))
      ∧ us.map (fun u => (u.Name, u.Email))
          = reqs.map (fun r => (r.Body.user.Name, r.Body.user.Email)) := by
  induction reqs with
  | nil =>
    intro db hwf
    exact ⟨[], by simpa [stateAfter] using hwf, by simp [stateAfter], rfl, rfl⟩
  | cons r rs ih =>
    intro db hwf
    have hrun := createUser_run env ResponseWriter.new r db h0 hwf
    have hwf1 := WF_insert db hwf r.Body.user.Name r.Body.user.Email
      (db.stmts ++ ["INSERT INTO users (name, email) VALUES ($1, $2) RETURNING id"])
    obtain ⟨us, h1, h2, h3, h4⟩ := ih _ hwf1
    refine ⟨⟨db.seq, r.Body.user.Name, r.Body.user.Email⟩ :: us, ?_, ?_, ?_, ?_⟩
    · simp only [stateAfter, hrun]
      exact h1
    · simp only [stateAfter, hrun]
      rw [h2]
      simp
    · simp only [outcomes, hrun, List.map_cons]
      rw [h3]
    · simp only [List.map_cons]
      rw [h4]

theorem Get_Set_self (w : ResponseWriter) (k v : String) : (w.Set k v).Get k = some v := by
  unfold ResponseWriter.Get ResponseWriter.Set
  simp only
  have hnone : List.find? (fun kv => kv.1 == k)
      (w.header.filter (fun kv => !(kv.1 == k))) = none := by
    rw [List.find?_eq_none]
    intro x hx
    have := (List.mem_filter.1 hx).2
    simpa using this
  rw [List.find?_append, hnone]
  simp

theorem Get_Set_other (w : ResponseWriter) (k k2 v : String) (hk : k ≠ k2) :
    (w.Set k v).Get k2 = w.Get k2 := by
  unfold ResponseWriter.Get ResponseWriter.Set
  simp only
  have hfilter : ∀ l : List (String × String),
      List.find? (fun kv => kv.1 == k2) (l.filter (fun kv => !(kv.1 == k)))
        = List.find? (fun kv => kv.1 == k2) l := by
    intro l
    induction l with
    | nil => rfl
    | cons a t ih =>
      by_cases ha : a.1 = k
      · have ha2 : ¬ a.1 = k2 := fun h => hk (ha.symm.trans h)
        simp [List.filter_cons, List.find?_cons, ha, ha2, ih, hk]
      · by_cases hb : a.1 = k2
        · have hk2 : ¬ k2 = k := fun h => hk h.symm
          simp [List.filter_cons, List.find?_cons, hb, hk2]
        · simp [List.filter_cons, List.find?_cons, ha, hb, ih]
  rw [List.find?_append, hfilter]
  cases h : List.find? (fun kv => kv.1 == k2) w.header with
  | some x => rfl
  | none => simp [hk]

theorem withCORS_Get (w : ResponseWriter) :
    (withCORS w).Get "Access-Control-Allow-Origin" = some "*"
    ∧ (withCORS w).Get "Access-Control-Allow-Methods" = some "POST, GET, OPTIONS, PUT, DELETE"
    ∧ (withCORS w).Get "Access-Control-Allow-Headers" = some "Content-Type"
    ∧ (withCORS w).Get "Content-Type" = w.Get "Content-Type" := by
  unfold withCORS
  refine ⟨?_, ?_, ?_, ?_⟩
  · rw [Get_Set_other _ _ _ _ (by decide), Get_Set_other _ _ _ _ (by decide), Get_Set_self]
  · rw [Get_Set_other _ _ _ _ (by decide), Get_Set_self]
  · rw [Get_Set_self]
  · rw [Get_Set_other _ _ _ _ (by decide), Get_Set_other _ _ _ _ (by decide),
      Get_Set_other _ _ _ _ (by decide)]

theorem scanRows_error (scanErr : Nat → Option String) (rows : List User) :
    ∀ (k : Nat) (acc : UserSlice) (j : Nat) (m : String),
      k ≤ j → j < k + rows.length → scanErr j = some m →
      ∃ err, scanRows scanErr rows k acc = .error err := by
  induction rows with
  | nil =>
    intro k acc j m h1 h2 _
    simp at h2
    omega
  | cons a t ih =>
    intro k acc j m h1 h2 hj
    rw [scanRows]
    cases hk : scanErr k with
    | some msg => exact ⟨_, rfl⟩
    | none =>
      have hne : k ≠ j := by
        intro h
        rw [h, hj] at hk
        exact Option.noConfusion hk
      simp only [List.length_cons] at h2
      exact ih (k + 1) _ j m (by omega) (by omega) hj

theorem getUsers_status (env : Env) (w : ResponseWriter) (r : Request) (db : DB)
    (hw : w.status = none) :
    ((getUsers env w r db).fatal ≠ none ∧ (getUsers env w r db).w = w)
    ∨ ((getUsers env w r db).fatal = none ∧ (getUsers env w r db).w.status = some 200) := by
  unfold getUsers
  dsimp only
  generalize db.selectAll (env.fault 0) = p
  rcases p with ⟨d, e | rows⟩
  · exact Or.inl ⟨by simp, rfl⟩
  · dsimp only
    generalize scanRows env.scanErr rows 0 (some []) = q
    rcases q with e | users
    · exact Or.inl ⟨by simp, rfl⟩
    · dsimp only
      cases env.rowsErr with
      | some m => exact Or.inl ⟨by simp, rfl⟩
      | none => exact Or.inr ⟨rfl, Encode_status w _ hw⟩

theorem getUser_status (env : Env) (w : ResponseWriter) (r : Request) (db : DB)
    (hw : w.status = none) :
    ((getUser env w r db).fatal ≠ none ∧ (getUser env w r db).w.status = some 404)
    ∨ ((getUser env w r db).fatal = none ∧ (getUser env w r db).w.status = some 200) := by
  unfold getUser
  dsimp only
  generalize db.selectById env.int4in (env.fault 0) (r.Var "id") = p
  rcases p with ⟨d, e | u⟩
  · exact Or.inl ⟨by simp, WriteHeader_status w 404 hw⟩
  · exact Or.inr ⟨rfl, Encode_status w _ hw⟩

theorem createUser_status (env : Env) (w : ResponseWriter) (r : Request) (db : DB)
    (hw : w.status = none) :
    ((createUser env w r db).fatal ≠ none ∧ (createUser env w r db).w = w)
    ∨ ((createUser env w r db).fatal = none ∧ (createUser env w r db).w.status = some 200) := by
  unfold createUser
  dsimp only
  generalize db.insertReturningId (env.fault 0) r.Body.user.Name r.Body.user.Email = p
  rcases p with ⟨d, e | u⟩
  · exact Or.inl ⟨by simp, rfl⟩
  · exact Or.inr ⟨rfl, Encode_status w _ hw⟩

theorem updateUser_status (env : Env) (w : ResponseWriter) (r : Request) (db : DB)
    (hw : w.status = none) :
    ((updateUser env w r db).fatal ≠ none ∧ (updateUser env w r db).w = w)
    ∨ ((updateUser env w r db).fatal = none ∧ (updateUser env w r db).w.status = some 200) := by
  unfold updateUser
  dsimp only
  generalize db.updateById env.int4in (env.fault 0) r.Body.user.Name r.Body.user.Email
    (r.Var "id") = p
  rcases p with ⟨d, e | u⟩
  · exact Or.inl ⟨by simp, rfl⟩
  · dsimp only
    generalize d.selectById env.int4in (env.fault 1) (r.Var "id") = q
    rcases q with ⟨d2, e | u2⟩
    · exact Or.inl ⟨by simp, rfl⟩
    · exact Or.inr ⟨rfl, Encode_status w _ hw⟩

theorem deleteUser_status (env : Env) (w : ResponseWriter) (r : Request) (db : DB)
    (hw : w.status = none) :
    (deleteUser env w r db).fatal = none
    ∧ ((deleteUser env w r db).w = w.WriteHeader 404
      ∨ (deleteUser env w r db).w.status = some 200) := by
  unfold deleteUser
  dsimp only
  generalize db.selectById env.int4in (env.fault 0) (r.Var "id") = p
  rcases p with ⟨d, e | u⟩
  · exact ⟨rfl, Or.inl rfl⟩
  · dsimp only
    generalize d.deleteById env.int4in (env.fault 1) (r.Var "id") = q
    rcases q with ⟨d2, e | u2⟩
    · exact ⟨rfl, Or.inl rfl⟩
    · exact ⟨rfl, Or.inr (Encode_status w _ hw)⟩

/-! ## The claims -/

/-- C1 (the code departs from the claim): on the table holding the single row
`(1, "A", "a@x.com")`, `PUT /api/go/users/1` with the body
`(id 7, "B", "b@x.com")` is answered 200 with the decoded body, id 7 included,
while the row re-read after the write is `(1, "B", "b@x.com")`; a body without
an id (decoded to 0) is answered with id 0. -/
theorem updateUser_answers_decoded_body :
    (updateUser healthy ResponseWriter.new (reqId "PUT" "1" ⟨7, "B", "b@x.com"⟩)
        ⟨[⟨1, "A", "a@x.com"⟩], 2, []⟩).w.body = [Json.object ⟨7, "B", "b@x.com"⟩]
    ∧ (updateUser healthy ResponseWriter.new (reqId "PUT" "1" ⟨7, "B", "b@x.com"⟩)
        ⟨[⟨1, "A", "a@x.com"⟩], 2, []⟩).w.status = some 200
    ∧ (updateUser healthy ResponseWriter.new (reqId "PUT" "1" ⟨7, "B", "b@x.com"⟩)
        ⟨[⟨1, "A", "a@x.com"⟩], 2, []⟩).fatal = none
    ∧ (updateUser healthy ResponseWriter.new (reqId "PUT" "1" ⟨7, "B", "b@x.com"⟩)
        ⟨[⟨1, "A", "a@x.com"⟩], 2, []⟩).st.find 1 = some ⟨1, "B", "b@x.com"⟩
    ∧ (updateUser healthy ResponseWriter.new (reqId "PUT" "1" ⟨0, "B", "b@x.com"⟩)
        ⟨[⟨1, "A", "a@x.com"⟩], 2, []⟩).w.body = [Json.object ⟨0, "B", "b@x.com"⟩] := by
  decide

/-- C2 (the code departs from the claim): on the empty table,
`GET /api/go/users/1` matches no row; `getUser` calls `WriteHeader(404)` and
then `log.Fatal`, which ends the serving process.  No body is written and the
table is unchanged. -/
theorem getUser_absent_row_ends_process :
    (getUser healthy ResponseWriter.new (reqId "GET" "1" ⟨0, "", ""⟩) ⟨[], 1, []⟩).fatal
        = some SqlError.ErrNoRows
    ∧ (getUser healthy ResponseWriter.new (reqId "GET" "1" ⟨0, "", ""⟩) ⟨[], 1, []⟩).w.status
        = some 404
    ∧ (getUser healthy ResponseWriter.new (reqId "GET" "1" ⟨0, "", ""⟩) ⟨[], 1, []⟩).w.body = []
    ∧ (getUser healthy ResponseWriter.new (reqId "GET" "1" ⟨0, "", ""⟩) ⟨[], 1, []⟩).st.rows = []
    ∧ (deleteUser healthy ResponseWriter.new (reqId "DELETE" "1" ⟨0, "", ""⟩) ⟨[], 1, []⟩).fatal
        = none := by
  decide

/-- C7: update visibility.  When the table has a row with the path id `i` and
no statement fails, `updateUser` returns without ending the process and
afterwards: the row found under `i` is exactly `(i, n, e)` for the decoded name
`n` and email `e` (whatever they are, the empty string included); the table has
the same ids in the same order; every position holds the old row, except that
rows with id `i` hold `(i, n, e)`; the sequence is unchanged; and a `getUser`
for `i` on the resulting table answers 200 with `(i, n, e)`. -/
theorem updateUser_then_getUser (env env2 : Env) (w w2 : ResponseWriter) (r r2 : Request)
    (db : DB) (i : Int)
    (h0 : env.fault 0 = none) (h1 : env.fault 1 = none)
    (hc : env.int4in (r.Var "id") = some i)
    (hrow : ∃ u ∈ db.rows, u.ID = i)
    (g0 : env2.fault 0 = none) (gc : env2.int4in (r2.Var "id") = some i)
    (hw2 : w2.status = none) :
    (updateUser env w r db).fatal = none
    ∧ (updateUser env w r db).st.find i = some ⟨i, r.Body.user.Name, r.Body.user.Email⟩
    ∧ (updateUser env w r db).st.rows.map User.ID = db.rows.map User.ID
    ∧ (∀ (k : Nat) (u : User), db.rows[k]? = some u →
        (updateUser env w r db).st.rows[k]?
          = some (if u.ID = i then ⟨i, r.Body.user.Name, r.Body.user.Email⟩ else u))
    ∧ (updateUser env w r db).st.seq = db.seq
    ∧ (getUser env2 w2 r2 (updateUser env w r db).st).w.status = some 200
    ∧ (getUser env2 w2 r2 (updateUser env w r db).st).w.body
        = w2.body ++ [Json.object ⟨i, r.Body.user.Name, r.Body.user.Email⟩]
    ∧ (getUser env2 w2 r2 (updateUser env w r db).st).fatal = none := by
  obtain ⟨u0, hu0, hu0i⟩ := hrow
  obtain ⟨v, hv⟩ := find_isSome_of_mem db i u0 hu0 hu0i
  have hvi : v.ID = i := find_id db i v hv
  have hrun := updateUser_run env w r db i h0 h1 hc
  rw [hv] at hrun
  simp only at hrun
  have hfind : (updateUser env w r db).st.find i
      = some ⟨i, r.Body.user.Name, r.Body.user.Email⟩ := by
    rw [hrun]
    show List.find? _ (List.map _ _) = _
    rw [find_map_assign]
    have : List.find? (User.hasId i) db.rows = some v := hv
    rw [this, Option.map_some', assign_of_hasId i _ _ v hvi]
  refine ⟨by rw [hrun], hfind, ?_, ?_, by rw [hrun], ?_⟩
  · rw [hrun]
    exact map_ID_map_assign _ _ _ _
  · intro k u hk
    rw [hrun]
    show (List.map _ db.rows)[k]? = _
    rw [List.getElem?_map, hk, Option.map_some']
    by_cases hu : u.ID = i
    · rw [if_pos hu, assign_of_hasId i _ _ u hu]
    · rw [if_neg hu, assign_of_ne i _ _ u hu]
  · rw [getUser_found env2 w2 r2 _ i _ g0 gc hfind]
    exact ⟨Encode_status w2 _ hw2, Encode_body w2 _, rfl⟩

/-- Witness for C7: the row `(1, "A", "a@x.com")` updated with empty name and
email. -/
theorem updateUser_then_getUser_witness :
    (updateUser healthy ResponseWriter.new (reqId "PUT" "1" ⟨0, "", ""⟩)
        ⟨[⟨1, "A", "a@x.com"⟩, ⟨2, "C", "c@x.com"⟩], 3, []⟩).st.find 1 = some ⟨1, "", ""⟩ :=
  (updateUser_then_getUser healthy healthy ResponseWriter.new ResponseWriter.new
    (reqId "PUT" "1" ⟨0, "", ""⟩) (reqId "GET" "1" ⟨0, "", ""⟩)
    ⟨[⟨1, "A", "a@x.com"⟩, ⟨2, "C", "c@x.com"⟩], 3, []⟩ 1
    rfl rfl (by decide) ⟨⟨1, "A", "a@x.com"⟩, by decide, rfl⟩ rfl (by decide) rfl).2.1

/-- C10: when no row has the path id and the `UPDATE` reports no error,
`updateUser` sends the `UPDATE` and the re-read, leaves rows and sequence as
they were, and ends in `log.Fatal` on `sql.ErrNoRows`: the response writer is
untouched, so neither 404 nor 200 is written. -/
theorem updateUser_absent_row_aborts (env : Env) (w : ResponseWriter) (r : Request)
    (db : DB) (i : Int)
    (h0 : env.fault 0 = none) (h1 : env.fault 1 = none)
    (hc : env.int4in (r.Var "id") = some i)
    (habs : ∀ u ∈ db.rows, u.ID ≠ i) (hw : w.status = none) :
    (updateUser env w r db).fatal = some SqlError.ErrNoRows
    ∧ (updateUser env w r db).st.rows = db.rows
    ∧ (updateUser env w r db).st.seq = db.seq
    ∧ (updateUser env w r db).st.stmts = db.stmts ++
        ["UPDATE users SET name = $1, email = $2 WHERE id = $3",
         "SELECT * FROM users WHERE id = $1"]
    ∧ (updateUser env w r db).w = w
    ∧ (updateUser env w r db).w.status ≠ some 404
    ∧ (updateUser env w r db).w.status ≠ some 200 := by
  have hrun := updateUser_run env w r db i h0 h1 hc
  rw [(find_eq_none_iff db i).2 habs] at hrun
  simp only at hrun
  rw [hrun]
  simp [hw]

/-- Witness for C10: an update of id 5 on a table holding only id 1. -/
theorem updateUser_absent_row_aborts_witness :
    (updateUser healthy ResponseWriter.new (reqId "PUT" "5" ⟨0, "B", "b@x.com"⟩)
        ⟨[⟨1, "A", "a@x.com"⟩], 2, []⟩).fatal = some SqlError.ErrNoRows :=
  (updateUser_absent_row_aborts healthy ResponseWriter.new (reqId "PUT" "5" ⟨0, "B", "b@x.com"⟩)
    ⟨[⟨1, "A", "a@x.com"⟩], 2, []⟩ 5 rfl rfl (by decide) (by decide) rfl).1

/-- C5: with a well-formed table, no failing statement and a path id read as
`i`, `deleteUser` never ends the process, and it answers 404, writes no body
and leaves rows and sequence as they were exactly when no row has id `i`;
when a row `u` has id `i` it removes that row and nothing else (the rows are
the old rows with `u` erased, one fewer, every row with another id still
present), answers 200 with the JSON string `"User deleted successfully"`, and a
lookup of `i` afterwards finds no row. -/
theorem deleteUser_spec (env : Env) (w : ResponseWriter) (r : Request) (db : DB) (i : Int)
    (h0 : env.fault 0 = none) (h1 : env.fault 1 = none)
    (hc : env.int4in (r.Var "id") = some i) (hwf : db.WF) (hw : w.status = none) :
    (deleteUser env w r db).fatal = none
    ∧ (((deleteUser env w r db).w.status = some 404
          ∧ (deleteUser env w r db).w.body = w.body
          ∧ (deleteUser env w r db).st.rows = db.rows
          ∧ (deleteUser env w r db).st.seq = db.seq)
        ↔ ∀ u ∈ db.rows, u.ID ≠ i)
    ∧ (∀ u ∈ db.rows, u.ID = i →
        (deleteUser env w r db).st.rows = db.rows.erase u
        ∧ (deleteUser env w r db).st.rows.length + 1 = db.rows.length
        ∧ (∀ v ∈ db.rows, v.ID ≠ i → v ∈ (deleteUser env w r db).st.rows)
        ∧ (deleteUser env w r db).st.seq = db.seq
        ∧ (deleteUser env w r db).w.status = some 200
        ∧ (deleteUser env w r db).w.body = w.body ++ [Json.string "User deleted successfully"]
        ∧ (deleteUser env w r db).st.find i = none) := by
  have hrun := deleteUser_run env w r db i h0 h1 hc
  cases hf : db.find i with
  | none =>
    rw [hf] at hrun
    simp only at hrun
    have habs := (find_eq_none_iff db i).1 hf
    rw [hrun]
    refine ⟨rfl, ?_, ?_⟩
    · constructor
      · intro _
        exact habs
      · intro _
        exact ⟨WriteHeader_status w 404 hw, WriteHeader_body w 404, rfl, rfl⟩
    · intro u hu hui
      exact absurd hui (habs u hu)
  | some v =>
    rw [hf] at hrun
    simp only at hrun
    have hvi : v.ID = i := find_id db i v hf
    have hvm : v ∈ db.rows := find_mem db i v hf
    rw [hrun]
    refine ⟨rfl, ?_, ?_⟩
    · constructor
      · intro h
        have h200 := Encode_status w (.string "User deleted successfully") hw
        rw [h200] at h
        exact absurd h.1 (by decide)
      · intro habs
        exact absurd hvi (habs v hvm)
    · intro u hu hui
      have huv : u = v := by
        have hinj := List.inj_on_of_nodup_map hwf.1
        exact hinj hu hvm (by rw [hui, hvi])
      subst huv
      have herase := filter_eq_erase db.rows i u hwf.1 hf
      refine ⟨herase, ?_, ?_, rfl, Encode_status w _ hw, Encode_body w _, ?_⟩
      · show (db.rows.filter (fun u => !(u.hasId i))).length + 1 = db.rows.length
        rw [herase, List.length_erase_of_mem hu]
        have : 0 < db.rows.length := List.length_pos_of_mem hu
        omega
      · intro x hx hxi
        show x ∈ db.rows.filter (fun u => !(u.hasId i))
        rw [List.mem_filter]
        refine ⟨hx, ?_⟩
        rw [(hasId_false_iff i x).2 hxi]
        rfl
      · exact find_filter_none db.rows i

/-- Witness for C5: deleting id 1 from a table holding ids 1 and 2 leaves the
row with id 2. -/
theorem deleteUser_spec_witness :
    (deleteUser healthy ResponseWriter.new (reqId "DELETE" "1" ⟨0, "", ""⟩)
        ⟨[⟨1, "A", "a@x.com"⟩, ⟨2, "C", "c@x.com"⟩], 3, []⟩).st.rows
      = [(⟨1, "A", "a@x.com"⟩ : User), ⟨2, "C", "c@x.com"⟩].erase ⟨1, "A", "a@x.com"⟩ :=
  ((deleteUser_spec healthy ResponseWriter.new (reqId "DELETE" "1" ⟨0, "", ""⟩)
    ⟨[⟨1, "A", "a@x.com"⟩, ⟨2, "C", "c@x.com"⟩], 3, []⟩ 1 rfl rfl (by decide)
    ⟨by decide, by decide⟩ rfl).2.2 ⟨1, "A", "a@x.com"⟩ (by decide) rfl).1

/-- C6: round trip.  On a well-formed table, when the `INSERT` does not fail,
`createUser` returns without ending the process, appends exactly one row
`(s, name, email)` where `s` is the next sequence value (an id no existing row
has), answers 200 with that User, and gives the same outcome whatever id the
decoded body carried; a `getUser` for `s` on the resulting table answers 200
with the same User. -/
theorem createUser_then_getUser (env env2 : Env) (w w2 : ResponseWriter) (r r2 : Request)
    (db : DB)
    (h0 : env.fault 0 = none) (hwf : db.WF) (hw : w.status = none)
    (g0 : env2.fault 0 = none) (gc : env2.int4in (r2.Var "id") = some db.seq)
    (hw2 : w2.status = none) :
    (createUser env w r db).fatal = none
    ∧ (createUser env w r db).st.rows
        = db.rows ++ [⟨db.seq, r.Body.user.Name, r.Body.user.Email⟩]
    ∧ (∀ u ∈ db.rows, u.ID ≠ db.seq)
    ∧ (createUser env w r db).w.status = some 200
    ∧ (createUser env w r db).w.body
        = w.body ++ [Json.object ⟨db.seq, r.Body.user.Name, r.Body.user.Email⟩]
    ∧ (∀ k : Int, createUser env w
          { r with Body := ⟨{ r.Body.user with ID := k }, r.Body.err⟩ } db
        = createUser env w r db)
    ∧ (getUser env2 w2 r2 (createUser env w r db).st).w.status = some 200
    ∧ (getUser env2 w2 r2 (createUser env w r db).st).w.body
        = w2.body ++ [Json.object ⟨db.seq, r.Body.user.Name, r.Body.user.Email⟩]
    ∧ (getUser env2 w2 r2 (createUser env w r db).st).fatal = none := by
  have hrun := createUser_run env w r db h0 hwf
  have hfresh : ∀ u ∈ db.rows, u.ID ≠ db.seq := by
    intro u hu
    have := hwf.2 u hu
    omega
  have hfind : (createUser env w r db).st.find db.seq
      = some ⟨db.seq, r.Body.user.Name, r.Body.user.Email⟩ := by
    rw [hrun]
    show List.find? _ (_ ++ _) = _
    have hnone : List.find? (User.hasId db.seq) db.rows = none :=
      (find_eq_none_iff db db.seq).2 hfresh
    rw [List.find?_append, hnone]
    simp [User.hasId]
  refine ⟨by rw [hrun], by rw [hrun], hfresh, ?_, ?_, ?_, ?_⟩
  · rw [hrun]
    exact Encode_status w _ hw
  · rw [hrun]
    exact Encode_body w _
  · intro k
    rw [hrun, createUser_run env w _ db h0 hwf]
  · rw [getUser_found env2 w2 r2 _ db.seq _ g0 gc hfind]
    exact ⟨Encode_status w2 _ hw2, Encode_body w2 _, rfl⟩

/-- Witness for C6: creating `("A", "a@x.com")` with a client-supplied id 99 on
a table whose sequence stands at 2. -/
theorem createUser_then_getUser_witness :
    (createUser healthy ResponseWriter.new ⟨"POST", ["api", "go", "users"],
        ⟨⟨99, "A", "a@x.com"⟩, none⟩, []⟩ ⟨[⟨1, "Z", "z@x.com"⟩], 2, []⟩).w.body
      = ResponseWriter.new.body ++ [Json.object ⟨2, "A", "a@x.com"⟩] :=
  (createUser_then_getUser healthy healthy ResponseWriter.new ResponseWriter.new
    ⟨"POST", ["api", "go", "users"], ⟨⟨99, "A", "a@x.com"⟩, none⟩, []⟩
    (reqId "GET" "2" ⟨0, "", ""⟩) ⟨[⟨1, "Z", "z@x.com"⟩], 2, []⟩
    rfl ⟨by decide, by decide⟩ rfl rfl (by decide) rfl).2.2.2.2.1

/-- C8: when no statement, scan or iteration fails, `getUsers` answers 200 with
one JSON array holding the stored rows (same id, name, email, in storage
order), ends no process and leaves rows and sequence as they were; on an empty
table the value written is the empty array, which is not `null`; and after the
requests `reqs` have each been served by a successful `createUser`, starting
from an empty table, the array holds exactly the Users those calls answered:
as many as requests, with pairwise distinct ids and the requested names and
emails. -/
theorem getUsers_spec (env : Env) (w : ResponseWriter) (r : Request)
    (h0 : env.fault 0 = none) (hs : ∀ k, env.scanErr k = none) (he : env.rowsErr = none)
    (hw : w.status = none) :
    (∀ db : DB,
        (getUsers env w r db).w.status = some 200
        ∧ (getUsers env w r db).w.body = w.body ++ [Json.array db.rows]
        ∧ (getUsers env w r db).fatal = none
        ∧ (getUsers env w r db).st.rows = db.rows
        ∧ (getUsers env w r db).st.seq = db.seq)
    ∧ (∀ db : DB, db.rows = [] →
        (getUsers env w r db).w.body = w.body ++ [Json.array []]
        ∧ Json.array [] ≠ Json.null)
    ∧ (∀ (cenv : Env) (reqs : List Request) (db : DB), cenv.fault 0 = none → db.rows = [] →
        ∃ us : List User,
          us.length = reqs.length
          ∧ (us.map User.ID).Nodup
          ∧ us.map (fun u => (u.Name, u.Email))
              = reqs.map (fun q => (q.Body.user.Name, q.Body.user.Email))
          ∧ (outcomes (createUser cenv) reqs db).map (fun res => (res.w, res.fatal))
              = us.map (fun u => (ResponseWriter.new.Encode (Json.object u), none))
          ∧ (getUsers env w r (stateAfter (createUser cenv) reqs db)).w.body
              = w.body ++ [Json.array us]) := by
  refine ⟨?_, ?_, ?_⟩
  · intro db
    rw [getUsers_run env w r db h0 hs he]
    exact ⟨Encode_status w _ hw, Encode_body w _, rfl, rfl, rfl⟩
  · intro db hdb
    rw [getUsers_run env w r db h0 hs he]
    refine ⟨?_, by decide⟩
    show (w.Encode (Json.array db.rows)).body = _
    rw [Encode_body, hdb]
  · intro cenv reqs db c0 hdb
    have hwf : db.WF := by
      unfold DB.WF
      rw [hdb]
      exact ⟨List.nodup_nil, fun u hu => absurd hu (List.not_mem_nil u)⟩
    obtain ⟨us, h1, h2, h3, h4⟩ := createAll cenv c0 reqs db hwf
    rw [hdb, List.nil_append] at h2
    refine ⟨us, ?_, ?_, h4, h3, ?_⟩
    · have := congrArg List.length h4
      simpa using this
    · have := h1.1
      rw [h2] at this
      exact this
    · rw [getUsers_run env w r _ h0 hs he]
      show (w.Encode (Json.array (stateAfter (createUser cenv) reqs db).rows)).body = _
      rw [Encode_body, h2]

/-- Witness for C8: listing on the healthy server. -/
theorem getUsers_spec_witness :
    (getUsers healthy ResponseWriter.new ⟨"GET", ["api", "go", "users"], ⟨⟨0, "", ""⟩, none⟩, []⟩
        ⟨[], 1, []⟩).w.body = ResponseWriter.new.body ++ [Json.array []]
    ∧ Json.array [] ≠ Json.null :=
  (getUsers_spec healthy ResponseWriter.new
    ⟨"GET", ["api", "go", "users"], ⟨⟨0, "", ""⟩, none⟩, []⟩
    rfl (fun _ => rfl) rfl rfl).2.1 ⟨[], 1, []⟩ rfl

/-- C9: preflight short-circuit.  For any inner handler `next` over any state
(the router in particular) and a response writer whose header is not yet
written: a request with method `OPTIONS`, on any path, is answered by
`enableCORS (jsonContentTypeMiddleware next)` with status 200, nothing written
to the body, the three CORS headers set and `Content-Type` as it was, with the
state untouched and the process running, whatever `next` is (a counting
handler is not invoked, and through the router the table, the sequence and the
list of statements sent are unchanged).  For any other method the outcome is
that of one invocation of `next` on the request, the same state and a writer
that already carries the three CORS headers and
`Content-Type: application/json`, with status and body not yet written (a
counting handler is invoked once). -/
theorem enableCORS_chain_spec {σ : Type} (next : Handler σ) (w : ResponseWriter)
    (r : Request) (st : σ) (hw : w.status = none) :
    (r.Method = "OPTIONS" →
        enableCORS (jsonContentTypeMiddleware next) w r st
          = ⟨(withCORS w).WriteHeader 200, st, none⟩
        ∧ ((withCORS w).WriteHeader 200).status = some 200
        ∧ ((withCORS w).WriteHeader 200).body = w.body
        ∧ ((withCORS w).WriteHeader 200).Get "Access-Control-Allow-Origin" = some "*"
        ∧ ((withCORS w).WriteHeader 200).Get "Access-Control-Allow-Methods"
            = some "POST, GET, OPTIONS, PUT, DELETE"
        ∧ ((withCORS w).WriteHeader 200).Get "Access-Control-Allow-Headers"
            = some "Content-Type"
        ∧ ((withCORS w).WriteHeader 200).Get "Content-Type" = w.Get "Content-Type"
        ∧ (∀ n : Nat, (enableCORS (jsonContentTypeMiddleware countCalls) w r n).st = n)
        ∧ (∀ (mux : MuxDefaults) (env : Env) (db : DB),
            (enhancedRouter mux env w r db).st = db
            ∧ (enhancedRouter mux env w r db).fatal = none
            ∧ (enhancedRouter mux env w r db).w = (withCORS w).WriteHeader 200))
    ∧ (r.Method ≠ "OPTIONS" →
        enableCORS (jsonContentTypeMiddleware next) w r st
          = next ((withCORS w).Set "Content-Type" "application/json") r st
        ∧ ((withCORS w).Set "Content-Type" "application/json").Get
            "Access-Control-Allow-Origin" = some "*"
        ∧ ((withCORS w).Set "Content-Type" "application/json").Get
            "Access-Control-Allow-Methods" = some "POST, GET, OPTIONS, PUT, DELETE"
        ∧ ((withCORS w).Set "Content-Type" "application/json").Get
            "Access-Control-Allow-Headers" = some "Content-Type"
        ∧ ((withCORS w).Set "Content-Type" "application/json").Get "Content-Type"
            = some "application/json"
        ∧ ((withCORS w).Set "Content-Type" "application/json").status = none
        ∧ ((withCORS w).Set "Content-Type" "application/json").body = w.body
        ∧ (∀ n : Nat, (enableCORS (jsonContentTypeMiddleware countCalls) w r n).st = n + 1)) := by
  obtain ⟨c1, c2, c3, c4⟩ := withCORS_Get w
  have hst : (withCORS w).status = none := hw
  constructor
  · intro hm
    have hrun : ∀ (τ : Type) (nx : Handler τ) (s : τ),
        enableCORS (jsonContentTypeMiddleware nx) w r s
          = ⟨(withCORS w).WriteHeader 200, s, none⟩ := by
      intro τ nx s
      simp only [enableCORS, hm, if_true]
      rfl
    refine ⟨hrun σ next st, WriteHeader_status _ 200 hst, ?_, ?_, ?_, ?_, ?_, ?_, ?_⟩
    · rw [WriteHeader_body]
      rfl
    · unfold ResponseWriter.Get
      rw [WriteHeader_header]
      exact c1
    · unfold ResponseWriter.Get
      rw [WriteHeader_header]
      exact c2
    · unfold ResponseWriter.Get
      rw [WriteHeader_header]
      exact c3
    · unfold ResponseWriter.Get
      rw [WriteHeader_header]
      exact c4
    · intro n
      rw [hrun Nat countCalls n]
    · intro mux env db
      unfold enhancedRouter
      rw [hrun DB (router mux env) db]
      exact ⟨rfl, rfl, rfl⟩
  · intro hm
    have hrun : ∀ (τ : Type) (nx : Handler τ) (s : τ),
        enableCORS (jsonContentTypeMiddleware nx) w r s
          = nx ((withCORS w).Set "Content-Type" "application/json") r s := by
      intro τ nx s
      simp only [enableCORS, hm, if_false]
      rfl
    refine ⟨hrun σ next st, ?_, ?_, ?_, Get_Set_self _ _ _, hst, rfl, ?_⟩
    · rw [Get_Set_other _ _ _ _ (by decide)]
      exact c1
    · rw [Get_Set_other _ _ _ _ (by decide)]
      exact c2
    · rw [Get_Set_other _ _ _ _ (by decide)]
      exact c3
    · intro n
      rw [hrun Nat countCalls n]
      rfl

/-- Witness for C9: a preflight request for a path no route matches, served by
the whole chain on a table with one row, and a `GET` through the two
middlewares into the counting handler. -/
theorem enableCORS_chain_spec_witness :
    (enhancedRouter statusOnly healthy ResponseWriter.new
        ⟨"OPTIONS", ["nowhere"], ⟨⟨0, "", ""⟩, none⟩, []⟩ ⟨[⟨1, "A", "a@x.com"⟩], 2, []⟩).st
      = ⟨[⟨1, "A", "a@x.com"⟩], 2, []⟩
    ∧ (enableCORS (jsonContentTypeMiddleware countCalls) ResponseWriter.new
        ⟨"GET", ["api", "go", "users"], ⟨⟨0, "", ""⟩, none⟩, []⟩ 0).st = 0 + 1 :=
  ⟨(((enableCORS_chain_spec countCalls ResponseWriter.new
      ⟨"OPTIONS", ["nowhere"], ⟨⟨0, "", ""⟩, none⟩, []⟩ 0 rfl).1 rfl).2.2.2.2.2.2.2.2
    statusOnly healthy ⟨[⟨1, "A", "a@x.com"⟩], 2, []⟩).1,
   ((enableCORS_chain_spec countCalls ResponseWriter.new
      ⟨"GET", ["api", "go", "users"], ⟨⟨0, "", ""⟩, none⟩, []⟩ 0 rfl).2
      (by decide)).2.2.2.2.2.2.2 0⟩

/-- C3 (the claim as stated fails): when the `SELECT` of `getUsers` fails with
"connection refused", the handler reaches `log.Fatal`: the process ends and no
status, 500 or other, is written; `deleteUser` on the same failure answers
404. -/
theorem store_failure_not_500 :
    ¬ ((getUsers (failingAt 0 "connection refused") ResponseWriter.new
          ⟨"GET", ["api", "go", "users"], ⟨⟨0, "", ""⟩, none⟩, []⟩
          ⟨[⟨1, "A", "a@x.com"⟩], 2, []⟩).w.status = some 500
        ∧ (getUsers (failingAt 0 "connection refused") ResponseWriter.new
          ⟨"GET", ["api", "go", "users"], ⟨⟨0, "", ""⟩, none⟩, []⟩
          ⟨[⟨1, "A", "a@x.com"⟩], 2, []⟩).fatal = none)
    ∧ (getUsers (failingAt 0 "connection refused") ResponseWriter.new
          ⟨"GET", ["api", "go", "users"], ⟨⟨0, "", ""⟩, none⟩, []⟩
          ⟨[⟨1, "A", "a@x.com"⟩], 2, []⟩).fatal
        = some (SqlError.failure "connection refused")
    ∧ (deleteUser (failingAt 0 "connection refused") ResponseWriter.new
          (reqId "DELETE" "1" ⟨0, "", ""⟩) ⟨[⟨1, "A", "a@x.com"⟩], 2, []⟩).w.status
        = some 404 := by
  decide

/-- C3 (amended): on a response writer whose header is not yet written, a
store failure `msg` raised by the first statement of the request makes
`getUsers`, `createUser` and `updateUser` end the process through
`log.Fatal(msg)` with the response writer untouched and the rows unchanged,
and makes `deleteUser` answer 404 with no body, rows unchanged, process
running; a failure of the second statement makes `updateUser` end the process
with the writer untouched and `deleteUser` answer 404 with rows unchanged; a
failing `rows.Scan` or `rows.Err()` makes `getUsers` end the process with the
writer untouched; and under any failures none of the five handlers writes
status 500. -/
theorem store_failure_outcomes (env : Env) (w : ResponseWriter) (r : Request) (db : DB)
    (msg : String) (hw : w.status = none) :
    (env.fault 0 = some msg →
        ((getUsers env w r db).fatal = some (SqlError.failure msg)
          ∧ (getUsers env w r db).w = w ∧ (getUsers env w r db).st.rows = db.rows)
        ∧ ((createUser env w r db).fatal = some (SqlError.failure msg)
          ∧ (createUser env w r db).w = w ∧ (createUser env w r db).st.rows = db.rows)
        ∧ ((updateUser env w r db).fatal = some (SqlError.failure msg)
          ∧ (updateUser env w r db).w = w ∧ (updateUser env w r db).st.rows = db.rows)
        ∧ ((deleteUser env w r db).fatal = none
          ∧ (deleteUser env w r db).w.status = some 404
          ∧ (deleteUser env w r db).w.body = w.body
          ∧ (deleteUser env w r db).st.rows = db.rows))
    ∧ (env.fault 0 = none → env.fault 1 = some msg →
        ((updateUser env w r db).fatal ≠ none ∧ (updateUser env w r db).w = w)
        ∧ ((deleteUser env w r db).fatal = none
          ∧ (deleteUser env w r db).w.status = some 404
          ∧ (deleteUser env w r db).w.body = w.body
          ∧ (deleteUser env w r db).st.rows = db.rows))
    ∧ (env.fault 0 = none →
        ((∃ j, j < db.rows.length ∧ env.scanErr j = some msg) ∨ env.rowsErr = some msg) →
        (getUsers env w r db).fatal ≠ none ∧ (getUsers env w r db).w = w)
    ∧ ((getUsers env w r db).w.status ≠ some 500
      ∧ (getUser env w r db).w.status ≠ some 500
      ∧ (createUser env w r db).w.status ≠ some 500
      ∧ (updateUser env w r db).w.status ≠ some 500
      ∧ (deleteUser env w r db).w.status ≠ some 500) := by
  refine ⟨?_, ?_, ?_, ?_⟩
  · intro h0
    refine ⟨?_, ?_, ?_, ?_⟩
    · simp [getUsers, DB.selectAll, h0, DB.sent]
    · simp [createUser, DB.insertReturningId, h0, DB.sent]
    · simp [updateUser, DB.updateById, h0, DB.sent]
    · simp [deleteUser, DB.selectById, h0, DB.sent, WriteHeader_status w 404 hw,
        WriteHeader_body]
  · intro h0 h1
    constructor
    · unfold updateUser
      dsimp only
      generalize db.updateById env.int4in (env.fault 0) r.Body.user.Name r.Body.user.Email
        (r.Var "id") = p
      rcases p with ⟨d, e | u⟩
      · exact ⟨by simp, rfl⟩
      · simp [DB.selectById, h1]
    · unfold deleteUser
      dsimp only
      simp only [DB.selectById, h0]
      cases env.int4in (r.Var "id") with
      | none => exact ⟨rfl, WriteHeader_status w 404 hw, WriteHeader_body w 404, rfl⟩
      | some i =>
        dsimp only
        cases db.find i with
        | none => exact ⟨rfl, WriteHeader_status w 404 hw, WriteHeader_body w 404, rfl⟩
        | some u =>
          simp [DB.deleteById, h1, DB.sent, WriteHeader_status w 404 hw, WriteHeader_body]
  · intro h0 hfail
    have hne : (getUsers env w r db).fatal ≠ none := by
      simp only [getUsers, DB.selectAll, h0]
      rcases hfail with ⟨j, hj, hs⟩ | he
      · obtain ⟨err, herr⟩ := scanRows_error env.scanErr db.rows 0 (some []) j msg
          (Nat.zero_le j) (by omega) hs
        rw [herr]
        simp
      · generalize scanRows env.scanErr db.rows 0 (some []) = q
        rcases q with e | users
        · simp
        · simp [he]
    rcases getUsers_status env w r db hw with h | h
    · exact ⟨hne, h.2⟩
    · exact absurd h.1 hne
  · refine ⟨?_, ?_, ?_, ?_, ?_⟩
    · rcases getUsers_status env w r db hw with h | h
      · rw [h.2, hw]
        simp
      · rw [h.2]
        decide
    · rcases getUser_status env w r db hw with h | h
      · rw [h.2]
        decide
      · rw [h.2]
        decide
    · rcases createUser_status env w r db hw with h | h
      · rw [h.2, hw]
        simp
      · rw [h.2]
        decide
    · rcases updateUser_status env w r db hw with h | h
      · rw [h.2, hw]
        simp
      · rw [h.2]
        decide
    · rcases (deleteUser_status env w r db hw).2 with h | h
      · rw [h, WriteHeader_status w 404 hw]
        decide
      · rw [h]
        decide

/-- Witness for C3 (amended): a server whose first statement fails, and one
whose second statement fails. -/
theorem store_failure_outcomes_witness :
    (createUser (failingAt 0 "connection refused") ResponseWriter.new
        ⟨"POST", ["api", "go", "users"], ⟨⟨0, "A", "a@x.com"⟩, none⟩, []⟩
        ⟨[⟨1, "Z", "z@x.com"⟩], 2, []⟩).fatal = some (SqlError.failure "connection refused")
    ∧ (updateUser (failingAt 1 "connection reset") ResponseWriter.new
        (reqId "PUT" "1" ⟨0, "B", "b@x.com"⟩) ⟨[⟨1, "Z", "z@x.com"⟩], 2, []⟩).fatal ≠ none
    ∧ (getUsers ⟨decimal, fun _ => none, fun _ => none, some "unexpected EOF"⟩
        ResponseWriter.new ⟨"GET", ["api", "go", "users"], ⟨⟨0, "", ""⟩, none⟩, []⟩
        ⟨[⟨1, "Z", "z@x.com"⟩], 2, []⟩).fatal ≠ none :=
  ⟨((store_failure_outcomes (failingAt 0 "connection refused") ResponseWriter.new
      ⟨"POST", ["api", "go", "users"], ⟨⟨0, "A", "a@x.com"⟩, none⟩, []⟩
      ⟨[⟨1, "Z", "z@x.com"⟩], 2, []⟩ "connection refused" rfl).1 rfl).2.1.1,
   ((store_failure_outcomes (failingAt 1 "connection reset") ResponseWriter.new
      (reqId "PUT" "1" ⟨0, "B", "b@x.com"⟩) ⟨[⟨1, "Z", "z@x.com"⟩], 2, []⟩
      "connection reset" rfl).2.1 rfl rfl).1.1,
   ((store_failure_outcomes ⟨decimal, fun _ => none, fun _ => none, some "unexpected EOF"⟩
      ResponseWriter.new ⟨"GET", ["api", "go", "users"], ⟨⟨0, "", ""⟩, none⟩, []⟩
      ⟨[⟨1, "Z", "z@x.com"⟩], 2, []⟩ "unexpected EOF" rfl).2.2.1 rfl (Or.inr rfl)).1⟩

/-- C4 (the claim as stated fails): a `POST` whose body the decoder rejects
(leaving the zero User) on an empty table is not answered 400 with the table
untouched: `createUser` inserts the row `(1, "", "")` and answers 200. -/
theorem createUser_undecodable_not_400 :
    ¬ ((createUser healthy ResponseWriter.new
          ⟨"POST", ["api", "go", "users"], ⟨⟨0, "", ""⟩, some "unexpected EOF"⟩, []⟩
          ⟨[], 1, []⟩).w.status = some 400
        ∧ (createUser healthy ResponseWriter.new
          ⟨"POST", ["api", "go", "users"], ⟨⟨0, "", ""⟩, some "unexpected EOF"⟩, []⟩
          ⟨[], 1, []⟩).st.rows = [])
    ∧ (createUser healthy ResponseWriter.new
          ⟨"POST", ["api", "go", "users"], ⟨⟨0, "", ""⟩, some "unexpected EOF"⟩, []⟩
          ⟨[], 1, []⟩).w.status = some 200
    ∧ (createUser healthy ResponseWriter.new
          ⟨"POST", ["api", "go", "users"], ⟨⟨0, "", ""⟩, some "unexpected EOF"⟩, []⟩
          ⟨[], 1, []⟩).st.rows = [⟨1, "", ""⟩] := by
  decide

/-- C4 (amended): for a request whose body the decoder rejected with an error
`e`, leaving the struct `u`, on a response writer whose header is not yet
written, `createUser` and `updateUser` discard the error and behave exactly as
for a body that decoded without error to `u`; neither writes status 400; when
the `INSERT` does not fail on a well-formed table, `createUser` appends the row
built from the name and email of `u` and answers 200; when no statement fails
and a row has the path id, `updateUser` stores the name and email of `u` in
that row and answers 200. -/
theorem undecodable_body_is_processed (env : Env) (w : ResponseWriter) (r : Request)
    (db : DB) (u : User) (e : String) (hw : w.status = none) :
    createUser env w (r.withBody ⟨u, some e⟩) db = createUser env w (r.withBody ⟨u, none⟩) db
    ∧ updateUser env w (r.withBody ⟨u, some e⟩) db
        = updateUser env w (r.withBody ⟨u, none⟩) db
    ∧ (createUser env w (r.withBody ⟨u, some e⟩) db).w.status ≠ some 400
    ∧ (updateUser env w (r.withBody ⟨u, some e⟩) db).w.status ≠ some 400
    ∧ (env.fault 0 = none → db.WF →
        (createUser env w (r.withBody ⟨u, some e⟩) db).st.rows
            = db.rows ++ [⟨db.seq, u.Name, u.Email⟩]
        ∧ (createUser env w (r.withBody ⟨u, some e⟩) db).w.status = some 200)
    ∧ (∀ i : Int, env.fault 0 = none → env.fault 1 = none →
        env.int4in (r.Var "id") = some i → (∃ v ∈ db.rows, v.ID = i) →
        (updateUser env w (r.withBody ⟨u, some e⟩) db).st.find i = some ⟨i, u.Name, u.Email⟩
        ∧ (updateUser env w (r.withBody ⟨u, some e⟩) db).w.status = some 200) := by
  refine ⟨rfl, rfl, ?_, ?_, ?_, ?_⟩
  · rcases createUser_status env w (r.withBody ⟨u, some e⟩) db hw with h | h
    · rw [h.2, hw]
      simp
    · rw [h.2]
      decide
  · rcases updateUser_status env w (r.withBody ⟨u, some e⟩) db hw with h | h
    · rw [h.2, hw]
      simp
    · rw [h.2]
      decide
  · intro h0 hwf
    rw [createUser_run env w _ db h0 hwf]
    exact ⟨rfl, Encode_status w _ hw⟩
  · intro i h0 h1 hc hrow
    obtain ⟨u0, hu0, hu0i⟩ := hrow
    obtain ⟨v, hv⟩ := find_isSome_of_mem db i u0 hu0 hu0i
    have hvi : v.ID = i := find_id db i v hv
    have hrun := updateUser_run env w (r.withBody ⟨u, some e⟩) db i h0 h1 hc
    rw [hv] at hrun
    simp only at hrun
    rw [hrun]
    refine ⟨?_, Encode_status w _ hw⟩
    show List.find? _ (List.map _ _) = _
    rw [find_map_assign]
    have : List.find? (User.hasId i) db.rows = some v := hv
    rw [this, Option.map_some', assign_of_hasId i _ _ v hvi]
    rfl

/-- Witness for C4 (amended): a rejected body that left the zero User, sent
as a `POST` to an empty table and as a `PUT` for an existing row. -/
theorem undecodable_body_is_processed_witness :
    (createUser healthy ResponseWriter.new
        ((Request.mk "POST" ["api", "go", "users"] ⟨⟨5, "x", "y"⟩, none⟩ []).withBody ⟨⟨0, "", ""⟩, some "unexpected EOF"⟩)
        ⟨[], 1, []⟩).st.rows = [] ++ [⟨1, "", ""⟩]
    ∧ (updateUser healthy ResponseWriter.new
        ((reqId "PUT" "1" ⟨5, "x", "y"⟩).withBody ⟨⟨0, "", ""⟩, some "unexpected EOF"⟩)
        ⟨[⟨1, "A", "a@x.com"⟩], 2, []⟩).st.find 1 = some ⟨1, "", ""⟩ :=
  ⟨((undecodable_body_is_processed healthy ResponseWriter.new
      (Request.mk "POST" ["api", "go", "users"] ⟨⟨5, "x", "y"⟩, none⟩ [])
      ⟨[], 1, []⟩ ⟨0, "", ""⟩ "unexpected EOF" rfl).2.2.2.2.1 rfl ⟨by decide, by decide⟩).1,
   ((undecodable_body_is_processed healthy ResponseWriter.new (reqId "PUT" "1" ⟨5, "x", "y"⟩)
      ⟨[⟨1, "A", "a@x.com"⟩], 2, []⟩ ⟨0, "", ""⟩ "unexpected EOF" rfl).2.2.2.2.2 1 rfl rfl
      (by decide) ⟨⟨1, "A", "a@x.com"⟩, by decide, rfl⟩).1⟩

end GoApp
